import Mathlib

/-!
Verification development for the dfu-boot USB DFU bootloader (src/src/dfu.rs,
src/src/flash.rs, src/src/flags.rs).  The Rust source is shallowly embedded:
pure register arithmetic becomes Lean functions, the flash peripheral becomes an
explicit state record (memory map, reported die size, per-word programming
faults), and the `Dfu` session struct with its `control_in` / `control_out` /
`process_flash` methods becomes explicit state passing.  Machine integers are
modelled as `Nat` with `% 2^32` where Rust wrapping arithmetic matters.
-/

set_option maxRecDepth 4000

namespace DfuBoot

/-! ## Memory-map constants (src/src/dfu.rs lines 24-31, src/src/flash.rs) -/

/-- Base address of the user-application region (`PAGE_START`). -/
def PAGE_START : Nat := 0x08004800

/-- Primary boot-flags address, last page of a 128 KiB part (`BL_FLAGS_HIGH`). -/
def BL_FLAGS_HIGH : Nat := 0x0801fc00

/-- Fallback boot-flags address, last page of a 64 KiB part (`BL_FLAGS_LOW`). -/
def BL_FLAGS_LOW : Nat := 0x0800fc00

/-- Magic sentinel stamped at the start of a valid boot-flags record (`BL_MAGIC`). -/
def BL_MAGIC : Nat := 0xdeadcafe

/-- Size of the RAM page staging buffer (`BIGGEST_PAGE`). -/
def BIGGEST_PAGE : Nat := 2048

/-! ## Flash peripheral model

The code talks to the STM32F1 flash controller through registers.  We model the
observable hardware state: `mem` maps 4-aligned byte addresses to the 32-bit
word stored there, `sizeKb` is the die size in KiB as reported by the read-only
size register at 0x1FFFF7E0 (and as physically present - addresses beyond
`0x0800_0000 + sizeKb*1024` do not exist), and `badWords` marks words whose
cells refuse to program (the fault model used by the spec's fake flash).  The
unlock/lock key dance (`unlock_flash` / `lock_flash`) only toggles controller
write protection and has no further observable effect in this model. -/

structure Flash where
  mem : Nat → Nat
  sizeKb : Nat
  badWords : Nat → Bool

/-- Flash status register bits consulted by `write_bl_flags` after an erase. -/
structure SR where
  wrprterr : Bool
  pgerr : Bool
  eop : Bool

/-- One past the last valid flash byte address. -/
def flashEnd (fl : Flash) : Nat := 0x08000000 + fl.sizeKb * 1024

/-- A 32-bit word at byte address `a` lies entirely inside the physical flash. -/
def validWord (fl : Flash) (a : Nat) : Prop :=
  0x08000000 ≤ a ∧ a + 4 ≤ flashEnd fl

instance (fl : Flash) (a : Nat) : Decidable (validWord fl a) := by
  unfold validWord; infer_instance

/-- Reading a word from flash.  Addresses beyond the physical die read as the
erased pattern 0xFFFFFFFF (they never hold the magic). -/
def readWord (fl : Flash) (a : Nat) : Nat :=
  if validWord fl a then fl.mem a else 0xffffffff

/-- Embedding of `get_flash_pg_size` (src/src/dfu.rs lines 192-200): the size
register's low 16 bits hold the flash size in KiB; above 128 the page size is
0x800, otherwise 0x400. -/
def get_flash_pg_size (fl : Flash) : Nat :=
  if fl.sizeKb % 65536 > 128 then 0x800 else 0x400

/-- Embedding of `erase_page` (src/src/dfu.rs lines 244-256).  Erasing a page
that physically exists sets its words to 0xFFFFFFFF and completes with EOP set;
attempting to erase a page beyond the die (the 128 KiB flags page on a 64 KiB
part) leaves memory alone and raises a program error with EOP clear, which is
exactly the detection signal `write_bl_flags` relies on. -/
def erase_page (fl : Flash) (addr : Nat) : Flash × SR :=
  if validWord fl addr then
    ({ fl with
        mem := fun a =>
          if addr ≤ a ∧ a < addr + get_flash_pg_size fl then 0xffffffff else fl.mem a },
      ⟨false, false, true⟩)
  else
    (fl, ⟨false, true, false⟩)

/-! ## `write_word` (src/src/dfu.rs lines 215-242)

The routine programs the high then the low half-word, reads the full word back,
and returns Ok when the readback equals `data`; otherwise the whole sequence is
retried, three attempts total, and on final failure it returns Err.  Two
embeddings of the same loop are given:

* `write_word` abstracts the hardware readback as an oracle `rb : Nat → Nat`
  giving the value read back on the i-th attempt - this is the fake-flash
  interface the spec's test harness describes, and lets attempts differ;
* `write_word_mem` instantiates the loop on the deterministic `Flash` model
  above (a programming attempt on a good word stores the value, on a bad word
  it leaves the cell), which is what the integrated DFU model uses. -/

/-- The retry loop of `write_word` over a per-attempt readback oracle: `i` is
the index of the current attempt, the second argument the attempts left. -/
def write_word_go (rb : Nat → Nat) (data : Nat) : Nat → Nat → Except Unit Unit
  | _, 0 => .error ()
  | i, n + 1 => if rb i = data then .ok () else write_word_go rb data (i + 1) n

/-- `write_word` over the readback oracle: up to three total attempts. -/
def write_word (rb : Nat → Nat) (data : Nat) : Except Unit Unit :=
  write_word_go rb data 0 3

/-- One programming attempt on the `Flash` model: a good word takes the value,
a bad word is left unchanged. -/
def progAttempt (fl : Flash) (addr data : Nat) : Flash :=
  if fl.badWords addr then fl
  else { fl with mem := fun x => if x = addr then data else fl.mem x }

/-- The `write_word` retry loop on the `Flash` model; returns the flash after
the attempts made together with whether some verify readback matched. -/
def write_word_mem_go (addr data : Nat) : Flash → Nat → Flash × Bool
  | fl, 0 => (fl, false)
  | fl, n + 1 =>
    if readWord (progAttempt fl addr data) addr = data then (progAttempt fl addr data, true)
    else write_word_mem_go addr data (progAttempt fl addr data) n

/-- `write_word` on the `Flash` model: three total attempts. -/
def write_word_mem (fl : Flash) (addr data : Nat) : Flash × Bool :=
  write_word_mem_go addr data fl 3

/-! ## Boot-flags record (src/src/dfu.rs lines 258-274) -/

/-- The `BlFlags` record.  `u32` fields are `Nat`s holding values below 2^32. -/
structure BlFlags where
  magic : Nat
  flash_count : Nat
  user_code_legit : Bool
  user_code_present : Bool
  user_code_length : Nat
deriving DecidableEq

/-- `size_of::<BlFlags>()`: the struct has three 4-byte `u32` fields and two
1-byte `bool` fields, alignment 4, so Rust lays it out in 16 bytes (14 bytes of
fields padded to the 4-byte alignment).  The record is NOT `repr(C)` with
word-sized booleans: the two `bool`s occupy single bytes inside one word. -/
def blFlagsSizeOf : Nat := 16

/-- The element count `BlFlags::as_u32_slice` passes to
`slice::from_raw_parts::<u32>` (src/src/dfu.rs lines 268-273): the code passes
`size_of::<T>()` - the BYTE size - as the number of `u32` elements, so the
resulting slice has 16 words (64 bytes), of which only the first 4 words are
the record's own memory; the remaining 12 are whatever memory follows it. -/
def as_u32_slice_len : Nat := blFlagsSizeOf

/-- The i-th 32-bit word of the record's own 16-byte memory image, for the
layout with fields at their declared offsets: `magic` at 0, `flash_count` at 4,
the two booleans at bytes 8 and 9 (padding bytes 10-11 zero), and
`user_code_length` at 12.  Little-endian byte order. -/
def blFlagsWord (f : BlFlags) : Nat → Nat
  | 0 => f.magic
  | 1 => f.flash_count
  | 2 => (if f.user_code_legit then 1 else 0) + 256 * (if f.user_code_present then 1 else 0)
  | 3 => f.user_code_length
  | _ => 0

/-- The full 16-word slice `as_u32_slice` yields: the 4 words of the record
followed by 12 words of adjacent memory, modelled by the oracle `junk`. -/
def blWords (f : BlFlags) (junk : Nat → Nat) (i : Nat) : Nat :=
  if i < 4 then blFlagsWord f i else junk (i - 4)

/-- The word-programming loop of `_write` inside `write_bl_flags`
(src/src/dfu.rs lines 101-108): program `ws 0 .. ws (n-1)` at consecutive
4-byte offsets from `addr` via `write_word`, ignoring individual failures
(the Rust code calls `.ok()` on each result). -/
def write_words (fl : Flash) (addr : Nat) (ws : Nat → Nat) : Nat → Flash
  | 0 => fl
  | n + 1 => (write_word_mem (write_words fl addr ws n) (addr + 4 * n) (ws n)).1

/-- Whether the status register after the primary erase makes `write_bl_flags`
fall back to the 64 KiB address (src/src/dfu.rs line 114). -/
def srFallback (sr : SR) : Bool := sr.wrprterr || sr.pgerr || !sr.eop

/-- Embedding of `write_bl_flags` (src/src/dfu.rs lines 100-123): erase the
primary page; if the status register shows a write-protect error, a program
error, or a clear end-of-operation bit, erase the fallback page and program the
record there, else program it at the primary address.  The slice written has
`as_u32_slice_len = 16` words (see `as_u32_slice_len`); `junk` supplies the 12
out-of-bounds words. -/
def write_bl_flags (fl : Flash) (flags : BlFlags) (junk : Nat → Nat) : Flash :=
  let p := erase_page fl BL_FLAGS_HIGH
  if srFallback p.2 then
    write_words (erase_page p.1 BL_FLAGS_LOW).1 BL_FLAGS_LOW (blWords flags junk)
      as_u32_slice_len
  else
    write_words p.1 BL_FLAGS_HIGH (blWords flags junk) as_u32_slice_len

/-- Reinterpreting the 16 bytes at `addr` as a `BlFlags` record, the inverse of
the layout in `blFlagsWord` (the Rust source casts the flash address to
`*mut BlFlags` and dereferences). -/
def decodeBlFlags (fl : Flash) (addr : Nat) : BlFlags :=
  { magic := readWord fl addr
    flash_count := readWord fl (addr + 4)
    user_code_legit := readWord fl (addr + 8) % 256 = 1
    user_code_present := readWord fl (addr + 8) / 256 % 256 = 1
    user_code_length := readWord fl (addr + 12) }

/-- Embedding of `read_bl_flags` (src/src/dfu.rs lines 125-145): read the
record at the primary address and return it if its magic matches; otherwise try
the fallback address; otherwise return none. -/
def read_bl_flags (fl : Flash) : Option BlFlags :=
  if readWord fl BL_FLAGS_HIGH = BL_MAGIC then some (decodeBlFlags fl BL_FLAGS_HIGH)
  else if readWord fl BL_FLAGS_LOW = BL_MAGIC then some (decodeBlFlags fl BL_FLAGS_LOW)
  else none

/-! ## DFU class state (src/src/dfu.rs lines 34-81, 283-322) -/

/-- DFU request numbers (`dfu_request` module). -/
def DFU_DETACH : Nat := 0

/-- `DFU_DNLOAD` request number. -/
def DFU_DNLOAD : Nat := 1

/-- `DFU_UPLOAD` request number. -/
def DFU_UPLOAD : Nat := 2

/-- `DFU_GETSTATUS` request number. -/
def DFU_GETSTATUS : Nat := 3

/-- `DFU_CLRSTATUS` request number. -/
def DFU_CLRSTATUS : Nat := 4

/-- `DFU_GETSTATE` request number. -/
def DFU_GETSTATE : Nat := 5

/-- `DFU_ABORT` request number. -/
def DFU_ABORT : Nat := 6

/-- The DFU protocol states, in the declaration order of the Rust enum. -/
inductive DfuState where
  | AppIdle
  | AppDetach
  | DfuIdle
  | DfuDnloadSync
  | DfuDnloadBusy
  | DfuDnloadIdle
  | DfuManifestSync
  | DfuManifest
  | DfuManifestWaitReset
  | DfuUploadIdle
  | DfuError
deriving DecidableEq

/-- The on-wire byte of a state (the Rust `as u8` cast uses the enum
discriminant, which by declaration order is 0..10). -/
def DfuState.toByte : DfuState → Nat
  | .AppIdle => 0
  | .AppDetach => 1
  | .DfuIdle => 2
  | .DfuDnloadSync => 3
  | .DfuDnloadBusy => 4
  | .DfuDnloadIdle => 5
  | .DfuManifestSync => 6
  | .DfuManifest => 7
  | .DfuManifestWaitReset => 8
  | .DfuUploadIdle => 9
  | .DfuError => 10

/-- The DFU status codes, in the declaration order of the Rust enum. -/
inductive DfuDeviceStatus where
  | Ok
  | ErrTarget
  | ErrFile
  | ErrWrite
  | ErrErase
  | ErrCheckErased
  | ErrProg
  | ErrVerify
  | ErrAddress
  | ErrNotDone
  | ErrFirmware
  | ErrVendor
  | ErrUsbR
  | ErrPoR
  | ErrUnknown
  | ErrStaledPkt
deriving DecidableEq

/-- The on-wire byte of a status code (the enum discriminant, 0..15). -/
def DfuDeviceStatus.toByte : DfuDeviceStatus → Nat
  | .Ok => 0
  | .ErrTarget => 1
  | .ErrFile => 2
  | .ErrWrite => 3
  | .ErrErase => 4
  | .ErrCheckErased => 5
  | .ErrProg => 6
  | .ErrVerify => 7
  | .ErrAddress => 8
  | .ErrNotDone => 9
  | .ErrFirmware => 10
  | .ErrVendor => 11
  | .ErrUsbR => 12
  | .ErrPoR => 13
  | .ErrUnknown => 14
  | .ErrStaledPkt => 15

/-- USB control-request type (`control::RequestType`). -/
inductive RequestType where
  | Standard
  | Class
  | Vendor
  | Reserved
deriving DecidableEq

/-- USB control-request recipient (`control::Recipient`). -/
inductive Recipient where
  | Device
  | Interface
  | Endpoint
  | Other
deriving DecidableEq

/-- The fields of a USB setup packet the DFU class inspects. -/
structure Request where
  request_type : RequestType
  recipient : Recipient
  index : Nat
  request : Nat
  value : Nat
  length : Nat

/-- The `Dfu` session struct (src/src/dfu.rs lines 285-300).  The page staging
buffer is a byte map `Nat → Nat`; it stands for the 2048-byte array
`page_buffer` (the Rust copy panics past index 2047, so the model is used only
at indices below `BIGGEST_PAGE`). -/
structure Dfu where
  comm_if : Nat
  upload_capable : Bool
  download_capable : Bool
  state : DfuState
  status : DfuDeviceStatus
  firmware_size : Nat
  awaits_flash : Bool
  flashing : Bool
  manifesting : Bool
  page_buffer : Nat → Nat
  page_buffer_index : Nat
  flags : Option BlFlags

/-- `Dfu::new` (src/src/dfu.rs lines 303-322): upload is unconditionally
disabled, the state machine starts in `DfuIdle` with `Ok` status, zeroed
buffer and counters, and the boot flags are read once at construction. -/
def Dfu.new (fl : Flash) (download_capable : Bool) (comm_if : Nat) : Dfu :=
  { comm_if
    upload_capable := false
    download_capable
    state := .DfuIdle
    status := .Ok
    firmware_size := 0
    awaits_flash := false
    flashing := false
    manifesting := false
    page_buffer := fun _ => 0
    page_buffer_index := 0
    flags := read_bl_flags fl }

/-- Whether a request is a class request on the interface recipient whose
`wIndex` names the DFU interface: both handlers return immediately otherwise
(src/src/dfu.rs lines 431-434 and 518-521). -/
def addressedToDfu (d : Dfu) (req : Request) : Prop :=
  req.request_type = RequestType.Class ∧ req.recipient = Recipient.Interface ∧
    req.index = d.comm_if

instance (d : Dfu) (req : Request) : Decidable (addressedToDfu d req) := by
  unfold addressedToDfu; infer_instance

/-- Outcome of a control-IN transfer: a reply of bytes, a stall (`reject`), or
no action on the transfer (wrong addressing, or the empty upload stub). -/
inductive InResult where
  | replied (bytes : List Nat)
  | rejected
  | noReply
deriving DecidableEq

/-- Outcome of a control-OUT transfer. -/
inductive OutResult where
  | accepted
  | rejected
  | ignored
deriving DecidableEq

/-- The six-byte GET_STATUS payload built by `accept_status` (src/src/dfu.rs
lines 437-446): status byte, 24-bit little-endian poll timeout, state byte, and
a zero iString. -/
def statusBytes (d : Dfu) (wait_time_ms : Nat) : List Nat :=
  [d.status.toByte, wait_time_ms % 256, wait_time_ms / 256 % 256,
    wait_time_ms / 65536 % 256, d.state.toByte, 0]

/-- The pre-dispatch fixups at the top of `Dfu::control_in` (src/src/dfu.rs
lines 449-463): a non-Ok status forces the `DfuError` state, and
`DfuDnloadBusy` advances to `DfuDnloadSync` once the deferred flash
completed. -/
def control_in_force_error (d : Dfu) : Dfu :=
  if d.status = .Ok then d else { d with state := .DfuError }

/-- The second pre-dispatch fixup: leave `DfuDnloadBusy` when the deferred
flash completed. -/
def control_in_pre (d : Dfu) : Dfu :=
  if (control_in_force_error d).state = .DfuDnloadBusy ∧
      ¬(control_in_force_error d).awaits_flash = true then
    { control_in_force_error d with state := .DfuDnloadSync }
  else control_in_force_error d

/-- The request dispatch of `control_in`, applied to the state after the
pre-dispatch fixups. -/
def control_in_dispatch (d2 : Dfu) (req : Request) : Dfu × InResult :=
    if req.request = DFU_UPLOAD ∧ req.value = 0 ∧ req.length > 0 ∧
        d2.upload_capable = true then
      (d2, .noReply)
    else if req.request = DFU_GETSTATUS ∧ req.value = 0 ∧ req.length = 6 then
      match d2.state with
      | .DfuDnloadSync =>
        let d3 :=
          { d2 with
              state := if d2.awaits_flash then .DfuDnloadBusy else .DfuDnloadIdle
              status := .Ok }
        (d3, .replied (statusBytes d3 0))
      | .DfuDnloadBusy =>
        let d3 := { d2 with state := .DfuDnloadSync }
        (d3, .replied (statusBytes d3 500))
      | .DfuManifest =>
        if d2.manifesting then (d2, .replied (statusBytes d2 500))
        else
          let d3 := { d2 with state := .DfuManifestSync }
          (d3, .replied (statusBytes d3 0))
      | .DfuManifestSync =>
        let d3 := { d2 with state := .DfuIdle }
        (d3, .replied (statusBytes d3 0))
      | _ => (d2, .replied (statusBytes d2 0))
    else if req.request = DFU_GETSTATE ∧ req.value = 0 ∧ req.length = 1 then
      (d2, .replied [d2.state.toByte])
    else
      ({ d2 with state := .DfuError, status := .ErrStaledPkt }, .rejected)

/-- Embedding of `Dfu::control_in` (src/src/dfu.rs lines 429-514).  After the
addressing guard, the pre-dispatch fixups run, then the request dispatch:
`GET_STATUS` replies and transitions per state; `GET_STATE` replies the state
byte; the guarded `UPLOAD` arm is an empty stub; anything else sets `DfuError`
with `ErrStaledPkt` and stalls. -/
def control_in (d : Dfu) (req : Request) : Dfu × InResult :=
  if ¬addressedToDfu d req then (d, .noReply)
  else control_in_dispatch (control_in_pre d) req

/-- Embedding of `Dfu::control_out` (src/src/dfu.rs lines 516-580).  A DNLOAD
with payload appends to the staging buffer in `DfuIdle`/`DfuDnloadIdle` (after
unlocking the flash, with no further observable effect in this model), latching
`awaits_flash` exactly when the index reaches the page size; a DNLOAD with
`wLength = 0` enters `DfuManifest` and latches `manifesting` and
`awaits_flash`; `CLRSTATUS` and `ABORT` are state-gated; anything else sets
`DfuError` with `ErrStaledPkt` and rejects. -/
def control_out (d : Dfu) (fl : Flash) (req : Request) (data : List Nat) :
    Dfu × OutResult :=
  if ¬addressedToDfu d req then (d, .ignored)
  else if req.request = DFU_DNLOAD ∧ d.download_capable = true then
    if req.length > 0 then
      match d.state with
      | .DfuIdle | .DfuDnloadIdle =>
        let start := d.page_buffer_index
        let len := data.length
        let page_size := get_flash_pg_size fl
        let idx := start + len
        let d' :=
          { d with
              page_buffer := fun i =>
                if start ≤ i ∧ i < start + len then data.getD (i - start) 0
                else d.page_buffer i
              page_buffer_index := idx
              awaits_flash := if idx = page_size then true else d.awaits_flash
              state := .DfuDnloadSync }
        (d', .accepted)
      | _ => (d, .rejected)
    else
      ({ d with state := .DfuManifest, manifesting := true, awaits_flash := true },
        .accepted)
  else if req.request = DFU_CLRSTATUS ∧ req.value = 0 ∧ req.length = 0 then
    match d.state with
    | .DfuError => ({ d with state := .DfuIdle, status := .Ok }, .accepted)
    | _ => (d, .rejected)
  else if req.request = DFU_ABORT ∧ req.value = 0 ∧ req.length = 0 then
    match d.state with
    | .DfuIdle => ({ d with status := .Ok }, .accepted)
    | _ => (d, .rejected)
  else
    ({ d with state := .DfuError, status := .ErrStaledPkt }, .rejected)

/-- `u32::from_le_bytes` of four consecutive staging-buffer bytes, as used by
the flush loop of `process_flash` (src/src/dfu.rs lines 338-340). -/
def bufWord (buf : Nat → Nat) (i : Nat) : Nat :=
  buf (4 * i) + 256 * buf (4 * i + 1) + 65536 * buf (4 * i + 2) +
    16777216 * buf (4 * i + 3)

/-- The word-programming loop of the flush branch of `process_flash`: program
`ws i, ws (i+1), ...` at consecutive word addresses; on the first failed
`write_word` stop and report the error (carrying the flash state reached). -/
def flush_go (ws : Nat → Nat) (addr : Nat) : Flash → Nat → Nat → Except Flash Flash
  | fl, _, 0 => .ok fl
  | fl, i, n + 1 =>
    if (write_word_mem fl (addr + 4 * i) (ws i)).2 then
      flush_go ws addr (write_word_mem fl (addr + 4 * i) (ws i)).1 (i + 1) n
    else .error (write_word_mem fl (addr + 4 * i) (ws i)).1

/-- Embedding of `Dfu::process_flash` (src/src/dfu.rs lines 328-383).  With
`awaits_flash` latched, erase the page at `PAGE_START + firmware_size` and
program the staged bytes word by word: a word failure sets `ErrWrite`, discards
the buffer and clears `awaits_flash`/`flashing` (leaving everything else,
including `manifesting` and `firmware_size`, untouched); success advances
`firmware_size` by the staged byte count and resets the index (the per-word
`status = Ok` assignment leaves the status unchanged when no word is written).
Otherwise with `manifesting` latched, build the fresh record (flash count
previous+1 or 1, both booleans true, length `firmware_size as u32`), write it
via `write_bl_flags`, re-read the flags and lock the flash.  `flashing` is set
while either branch runs and cleared at its end; the model keeps the final
value.  `junk` feeds the out-of-bounds words of `as_u32_slice`. -/
def process_flash (d : Dfu) (fl : Flash) (junk : Nat → Nat) : Dfu × Flash :=
  if d.awaits_flash && !d.flashing then
    let addr := PAGE_START + d.firmware_size
    let fl1 := (erase_page fl addr).1
    let n := d.page_buffer_index / 4
    match flush_go (bufWord d.page_buffer) addr fl1 0 n with
    | .error fl2 =>
      ({ d with
          status := .ErrWrite
          page_buffer_index := 0
          awaits_flash := false
          flashing := false }, fl2)
    | .ok fl2 =>
      ({ d with
          status := if n = 0 then d.status else .Ok
          firmware_size := d.firmware_size + d.page_buffer_index
          page_buffer_index := 0
          awaits_flash := false
          flashing := false }, fl2)
  else if d.manifesting && !d.flashing then
    let fc : Nat :=
      match d.flags with
      | some f => (f.flash_count + 1) % 4294967296
      | none => 1
    let nf : BlFlags :=
      { magic := BL_MAGIC
        flash_count := fc
        user_code_legit := true
        user_code_present := true
        user_code_length := d.firmware_size % 4294967296 }
    let fl' := write_bl_flags fl nf junk
    ({ d with flags := read_bl_flags fl', manifesting := false, flashing := false },
      fl')
  else (d, fl)

/-! ## Session traces

A session interleaves control transfers with the `process_flash` calls the USB
interrupt handler issues after each poll (src/src/main.rs). -/

/-- One externally triggered operation on the DFU session. -/
inductive Step where
  | ctlOut (req : Request) (data : List Nat)
  | ctlIn (req : Request)
  | poll (junk : Nat → Nat)

/-- Apply one step to the session-and-flash pair. -/
def runStep (s : Dfu × Flash) : Step → Dfu × Flash
  | .ctlOut req data => ((control_out s.1 s.2 req data).1, s.2)
  | .ctlIn req => ((control_in s.1 req).1, s.2)
  | .poll junk => process_flash s.1 s.2 junk

/-- Run a list of steps. -/
def run (s : Dfu × Flash) (steps : List Step) : Dfu × Flash :=
  steps.foldl runStep s

/-- The payload length a step carries (zero for IN transfers and polls). -/
def outLen : Step → Nat
  | .ctlOut _ data => data.length
  | _ => 0

/-- Total payload bytes offered by the OUT transfers of a trace. -/
def totalOutLen (steps : List Step) : Nat :=
  (steps.map outLen).sum

/-! ## Concrete sample states used by witnesses and counterexamples -/

/-- A healthy 128 KiB part with zeroed memory and no faulty words. -/
def flash128 : Flash := ⟨fun _ => 0, 128, fun _ => false⟩

/-- A healthy 64 KiB part: the primary flags page does not physically exist. -/
def flash64 : Flash := ⟨fun _ => 0, 64, fun _ => false⟩

/-- A 128 KiB part whose very first application word refuses to program. -/
def flash128bad : Flash := ⟨fun _ => 0, 128, fun a => a == 0x08004800⟩

/-- A readback oracle that fails the first two verifies and succeeds the third
(the fake flash of spec property 8). -/
def rbThirdTry (data : Nat) : Nat → Nat := fun i => if i = 2 then data else data + 1

/-- A readback oracle that never returns the programmed value. -/
def rbNever (data : Nat) : Nat → Nat := fun _ => data + 1

/-! ## Basic facts about the flash model -/

/-- A programming attempt never changes the die size. -/
lemma progAttempt_sizeKb (fl : Flash) (a v : Nat) :
    (progAttempt fl a v).sizeKb = fl.sizeKb := by
  unfold progAttempt; split <;> rfl

/-- A programming attempt never changes the fault map. -/
lemma progAttempt_badWords (fl : Flash) (a v : Nat) :
    (progAttempt fl a v).badWords = fl.badWords := by
  unfold progAttempt; split <;> rfl

/-- The `write_word` retry loop never changes die size or fault map. -/
lemma write_word_mem_go_meta (a v : Nat) :
    ∀ (n : Nat) (fl : Flash),
      (write_word_mem_go a v fl n).1.sizeKb = fl.sizeKb ∧
      (write_word_mem_go a v fl n).1.badWords = fl.badWords := by
  intro n
  induction n with
  | zero => intro fl; exact ⟨rfl, rfl⟩
  | succ n ih =>
    intro fl
    unfold write_word_mem_go
    split
    · exact ⟨progAttempt_sizeKb fl a v, progAttempt_badWords fl a v⟩
    · refine ⟨?_, ?_⟩
      · rw [(ih (progAttempt fl a v)).1]; exact progAttempt_sizeKb fl a v
      · rw [(ih (progAttempt fl a v)).2]; exact progAttempt_badWords fl a v

/-- `write_word_mem` never changes die size or fault map. -/
lemma write_word_mem_meta (fl : Flash) (a v : Nat) :
    (write_word_mem fl a v).1.sizeKb = fl.sizeKb ∧
    (write_word_mem fl a v).1.badWords = fl.badWords :=
  write_word_mem_go_meta a v 3 fl

/-- Word validity only depends on the die size. -/
lemma validWord_of_sizeKb {fl fl' : Flash} (h : fl'.sizeKb = fl.sizeKb) (x : Nat) :
    validWord fl' x ↔ validWord fl x := by
  unfold validWord flashEnd; rw [h]

/-- On a good word inside the die, `write_word` succeeds on its first attempt
and stores the value. -/
lemma write_word_mem_ok (fl : Flash) (a v : Nat) (hbad : fl.badWords a = false)
    (hv : validWord fl a) :
    write_word_mem fl a v =
      ({ fl with mem := fun x => if x = a then v else fl.mem x }, true) := by
  have hpa : progAttempt fl a v =
      { fl with mem := fun x => if x = a then v else fl.mem x } := by
    unfold progAttempt; rw [hbad]; simp
  have hrd : readWord { fl with mem := fun x => if x = a then v else fl.mem x } a = v := by
    unfold readWord
    rw [if_pos
      (show validWord { fl with mem := fun x => if x = a then v else fl.mem x } a from hv)]
    simp
  unfold write_word_mem write_word_mem_go
  rw [hpa, if_pos hrd]

/-- The retry loop leaves words other than its target untouched. -/
lemma write_word_mem_go_mem_other (a v : Nat) :
    ∀ (n : Nat) (fl : Flash) (x : Nat), x ≠ a →
      (write_word_mem_go a v fl n).1.mem x = fl.mem x := by
  intro n
  induction n with
  | zero => intro fl x _; rfl
  | succ n ih =>
    intro fl x hx
    have hpm : (progAttempt fl a v).mem x = fl.mem x := by
      unfold progAttempt; split
      · rfl
      · simp [hx]
    unfold write_word_mem_go
    split
    · exact hpm
    · rw [ih (progAttempt fl a v) x hx]; exact hpm

/-- The record-programming loop never changes die size or fault map. -/
lemma write_words_meta (addr : Nat) (ws : Nat → Nat) :
    ∀ (n : Nat) (fl : Flash),
      (write_words fl addr ws n).sizeKb = fl.sizeKb ∧
      (write_words fl addr ws n).badWords = fl.badWords := by
  intro n
  induction n with
  | zero => intro fl; exact ⟨rfl, rfl⟩
  | succ n ih =>
    intro fl
    unfold write_words
    refine ⟨?_, ?_⟩
    · rw [(write_word_mem_meta (write_words fl addr ws n) (addr + 4 * n) (ws n)).1]
      exact (ih fl).1
    · rw [(write_word_mem_meta (write_words fl addr ws n) (addr + 4 * n) (ws n)).2]
      exact (ih fl).2

/-- After programming `n` words of a record on a fault-free die, word `k` of
the record reads back as written. -/
lemma write_words_mem (addr : Nat) (ws : Nat → Nat) :
    ∀ (n : Nat) (fl : Flash), (∀ a, fl.badWords a = false) →
      (∀ j, j < n → validWord fl (addr + 4 * j)) →
      ∀ k, k < n → (write_words fl addr ws n).mem (addr + 4 * k) = ws k := by
  intro n
  induction n with
  | zero => intro fl _ _ k hk; omega
  | succ n ih =>
    intro fl hbad hv k hk
    unfold write_words
    have hmeta := write_words_meta addr ws n fl
    have hbadW : (write_words fl addr ws n).badWords (addr + 4 * n) = false := by
      rw [hmeta.2]; exact hbad _
    have hvW : validWord (write_words fl addr ws n) (addr + 4 * n) :=
      (validWord_of_sizeKb hmeta.1 _).mpr (hv n (by omega))
    rw [write_word_mem_ok (write_words fl addr ws n) (addr + 4 * n) (ws n) hbadW hvW]
    by_cases hkn : k = n
    · subst hkn; simp
    · have hne : addr + 4 * k ≠ addr + 4 * n := by omega
      simp only [hne, if_false, if_neg hne]
      exact ih fl hbad (fun j hj => hv j (by omega)) k (by omega)

/-- The record-programming loop leaves addresses outside its 4-byte slots
untouched. -/
lemma write_words_mem_other (addr : Nat) (ws : Nat → Nat) :
    ∀ (n : Nat) (fl : Flash) (x : Nat), (∀ j, j < n → x ≠ addr + 4 * j) →
      (write_words fl addr ws n).mem x = fl.mem x := by
  intro n
  induction n with
  | zero => intro fl x _; rfl
  | succ n ih =>
    intro fl x hx
    unfold write_words
    have h1 : (write_word_mem (write_words fl addr ws n) (addr + 4 * n) (ws n)).1.mem x =
        (write_words fl addr ws n).mem x :=
      write_word_mem_go_mem_other (addr + 4 * n) (ws n) 3 _ x (hx n (by omega))
    rw [h1]
    exact ih fl x (fun j hj => hx j (by omega))

/-- Reading back word `k` of a freshly programmed record. -/
lemma readWord_write_words (fl : Flash) (addr : Nat) (ws : Nat → Nat) (n k : Nat)
    (hbad : ∀ a, fl.badWords a = false)
    (hv : ∀ j, j < n → validWord fl (addr + 4 * j)) (hk : k < n) :
    readWord (write_words fl addr ws n) (addr + 4 * k) = ws k := by
  unfold readWord
  rw [if_pos ((validWord_of_sizeKb (write_words_meta addr ws n fl).1 _).mpr (hv k hk))]
  exact write_words_mem addr ws n fl hbad hv k hk

/-! ## The boot-flags store -/

/-- The primary flags page exists exactly on dies of at least 128 KiB. -/
lemma validWord_high_iff (fl : Flash) : validWord fl BL_FLAGS_HIGH ↔ 128 ≤ fl.sizeKb := by
  unfold validWord flashEnd BL_FLAGS_HIGH; omega

/-- The fallback flags page exists on every die of at least 64 KiB. -/
lemma validWord_low (fl : Flash) (h : 64 ≤ fl.sizeKb) : validWord fl BL_FLAGS_LOW := by
  unfold validWord flashEnd BL_FLAGS_LOW; omega

/-- All 16 word slots of the slice written at the primary address are on-die
when the die has at least 128 KiB. -/
lemma words_valid_high (fl : Flash) (h : 128 ≤ fl.sizeKb) :
    ∀ j, j < 16 → validWord fl (BL_FLAGS_HIGH + 4 * j) := by
  intro j hj; unfold validWord flashEnd BL_FLAGS_HIGH; omega

/-- All 16 word slots of the slice written at the fallback address are on-die
when the die has at least 64 KiB. -/
lemma words_valid_low (fl : Flash) (h : 64 ≤ fl.sizeKb) :
    ∀ j, j < 16 → validWord fl (BL_FLAGS_LOW + 4 * j) := by
  intro j hj; unfold validWord flashEnd BL_FLAGS_LOW; omega

/-- Erasing an existing page: the page words go to 0xFFFFFFFF and the status
register reports a clean end of operation. -/
lemma erase_page_valid (fl : Flash) (addr : Nat) (h : validWord fl addr) :
    erase_page fl addr =
      ({ fl with mem := fun a =>
          if addr ≤ a ∧ a < addr + get_flash_pg_size fl then 0xffffffff else fl.mem a },
        ⟨false, false, true⟩) := by
  unfold erase_page; rw [if_pos h]

/-- Erasing a page beyond the die: no memory change, error bits raised. -/
lemma erase_page_invalid (fl : Flash) (addr : Nat) (h : ¬validWord fl addr) :
    erase_page fl addr = (fl, ⟨false, true, false⟩) := by
  unfold erase_page; rw [if_neg h]

/-- Decoding the four record words written by `blWords` recovers the record. -/
lemma decode_encode (W : Flash) (addr : Nat) (flags : BlFlags) (junk : Nat → Nat)
    (h0 : readWord W addr = blWords flags junk 0)
    (h1 : readWord W (addr + 4) = blWords flags junk 1)
    (h2 : readWord W (addr + 8) = blWords flags junk 2)
    (h3 : readWord W (addr + 12) = blWords flags junk 3) :
    decodeBlFlags W addr = flags := by
  obtain ⟨m, c, l, p, len⟩ := flags
  unfold decodeBlFlags
  rw [h0, h1, h2, h3]
  cases l <;> cases p <;> simp [blWords, blFlagsWord]

/-- After programming the 16-word slice at `addr` on a fault-free region, the
magic reads back and the decoded record is the one written. -/
lemma read_after_write_at (fl0 : Flash) (addr : Nat) (flags : BlFlags) (junk : Nat → Nat)
    (hbad : ∀ a, fl0.badWords a = false)
    (hv : ∀ j, j < 16 → validWord fl0 (addr + 4 * j)) :
    readWord (write_words fl0 addr (blWords flags junk) 16) addr = flags.magic ∧
    decodeBlFlags (write_words fl0 addr (blWords flags junk) 16) addr = flags := by
  have h0 := readWord_write_words fl0 addr (blWords flags junk) 16 0 hbad hv (by omega)
  have h1 := readWord_write_words fl0 addr (blWords flags junk) 16 1 hbad hv (by omega)
  have h2 := readWord_write_words fl0 addr (blWords flags junk) 16 2 hbad hv (by omega)
  have h3 := readWord_write_words fl0 addr (blWords flags junk) 16 3 hbad hv (by omega)
  rw [show addr + 4 * 0 = addr by omega] at h0
  rw [show addr + 4 * 1 = addr + 4 by omega] at h1
  rw [show addr + 4 * 2 = addr + 8 by omega] at h2
  rw [show addr + 4 * 3 = addr + 12 by omega] at h3
  refine ⟨?_, decode_encode _ _ _ _ h0 h1 h2 h3⟩
  rw [h0]; simp [blWords, blFlagsWord]

/-- The record-write loop preserves word validity. -/
lemma validWord_write_words (fl : Flash) (addr : Nat) (ws : Nat → Nat) (n x : Nat) :
    validWord (write_words fl addr ws n) x ↔ validWord fl x :=
  validWord_of_sizeKb (write_words_meta addr ws n fl).1 x

/-- Round trip of the boot-flags store on a fault-free die of either supported
size: writing a record with the magic set and reading back returns it. -/
lemma read_write_bl_flags (fl : Flash) (flags : BlFlags) (junk : Nat → Nat)
    (hbad : ∀ a, fl.badWords a = false) (hsz : 64 ≤ fl.sizeKb)
    (hm : flags.magic = BL_MAGIC) :
    read_bl_flags (write_bl_flags fl flags junk) = some flags := by
  by_cases hhigh : validWord fl BL_FLAGS_HIGH
  · -- the primary page exists: the record lands at BL_FLAGS_HIGH
    have h128 : 128 ≤ fl.sizeKb := (validWord_high_iff fl).mp hhigh
    have hW : write_bl_flags fl flags junk =
        write_words
          ({ fl with mem := fun a =>
              if BL_FLAGS_HIGH ≤ a ∧ a < BL_FLAGS_HIGH + get_flash_pg_size fl then 0xffffffff
              else fl.mem a })
          BL_FLAGS_HIGH (blWords flags junk) 16 := by
      unfold write_bl_flags
      rw [erase_page_valid fl _ hhigh]
      simp [srFallback, as_u32_slice_len, blFlagsSizeOf]
    have hmain := read_after_write_at
      ({ fl with mem := fun a =>
          if BL_FLAGS_HIGH ≤ a ∧ a < BL_FLAGS_HIGH + get_flash_pg_size fl then 0xffffffff
          else fl.mem a })
      BL_FLAGS_HIGH flags junk hbad (words_valid_high _ h128)
    unfold read_bl_flags
    rw [hW, hmain.1, hm, if_pos rfl, hmain.2]
  · -- the primary page does not exist: fall back to BL_FLAGS_LOW
    have hlow : validWord fl BL_FLAGS_LOW := validWord_low fl hsz
    have hW : write_bl_flags fl flags junk =
        write_words
          ({ fl with mem := fun a =>
              if BL_FLAGS_LOW ≤ a ∧ a < BL_FLAGS_LOW + get_flash_pg_size fl then 0xffffffff
              else fl.mem a })
          BL_FLAGS_LOW (blWords flags junk) 16 := by
      unfold write_bl_flags
      rw [erase_page_invalid fl _ hhigh]
      simp only []
      rw [show srFallback ⟨false, true, false⟩ = true by rfl, if_pos rfl,
        erase_page_valid fl _ hlow]
      rfl
    have hmain := read_after_write_at
      ({ fl with mem := fun a =>
          if BL_FLAGS_LOW ≤ a ∧ a < BL_FLAGS_LOW + get_flash_pg_size fl then 0xffffffff
          else fl.mem a })
      BL_FLAGS_LOW flags junk hbad (words_valid_low _ hsz)
    have hhighread : readWord (write_bl_flags fl flags junk) BL_FLAGS_HIGH = 0xffffffff := by
      rw [hW]
      unfold readWord
      rw [if_neg]
      rw [validWord_write_words]
      exact fun h => hhigh h
    unfold read_bl_flags
    rw [hhighread]
    rw [if_neg (by decide)]
    rw [hW, hmain.1, hm, if_pos rfl, hmain.2]

/-- On a die with the primary page, `write_bl_flags` erases that page and
programs the 16-word slice there. -/
lemma write_bl_flags_eq_high (fl : Flash) (flags : BlFlags) (junk : Nat → Nat)
    (hhigh : validWord fl BL_FLAGS_HIGH) :
    write_bl_flags fl flags junk =
      write_words
        ({ fl with mem := fun a =>
            if BL_FLAGS_HIGH ≤ a ∧ a < BL_FLAGS_HIGH + get_flash_pg_size fl then 0xffffffff
            else fl.mem a })
        BL_FLAGS_HIGH (blWords flags junk) 16 := by
  unfold write_bl_flags
  rw [erase_page_valid fl _ hhigh]
  simp [srFallback, as_u32_slice_len, blFlagsSizeOf]

/-- On a die without the primary page, `write_bl_flags` erases the fallback
page and programs the 16-word slice there. -/
lemma write_bl_flags_eq_low (fl : Flash) (flags : BlFlags) (junk : Nat → Nat)
    (hhigh : ¬validWord fl BL_FLAGS_HIGH) (hlow : validWord fl BL_FLAGS_LOW) :
    write_bl_flags fl flags junk =
      write_words
        ({ fl with mem := fun a =>
            if BL_FLAGS_LOW ≤ a ∧ a < BL_FLAGS_LOW + get_flash_pg_size fl then 0xffffffff
            else fl.mem a })
        BL_FLAGS_LOW (blWords flags junk) 16 := by
  unfold write_bl_flags
  rw [erase_page_invalid fl _ hhigh]
  simp only []
  rw [show srFallback ⟨false, true, false⟩ = true by rfl, if_pos rfl,
    erase_page_valid fl _ hlow]
  rfl

/-- Both supported page sizes strictly exceed 256 bytes. -/
lemma page_size_gt_256 (fl : Flash) : 256 < get_flash_pg_size fl := by
  unfold get_flash_pg_size; split <;> omega

/-! ## Behaviour of the deferred flash work -/

/-- Erasing never changes die size or fault map. -/
lemma erase_page_meta (fl : Flash) (addr : Nat) :
    (erase_page fl addr).1.sizeKb = fl.sizeKb ∧
    (erase_page fl addr).1.badWords = fl.badWords := by
  unfold erase_page; split <;> exact ⟨rfl, rfl⟩

/-- On a fault-free region of on-die words, the flush loop programs every word
successfully, preserving die size and fault map. -/
lemma flush_go_ok (ws : Nat → Nat) (addr : Nat) :
    ∀ (n : Nat) (fl : Flash) (i : Nat),
      (∀ a, fl.badWords a = false) →
      (∀ j, i ≤ j → j < i + n → validWord fl (addr + 4 * j)) →
      ∃ fl', flush_go ws addr fl i n = .ok fl' ∧
        fl'.sizeKb = fl.sizeKb ∧ fl'.badWords = fl.badWords := by
  intro n
  induction n with
  | zero => intro fl i _ _; exact ⟨fl, rfl, rfl, rfl⟩
  | succ n ih =>
    intro fl i hbad hv
    have hvi : validWord fl (addr + 4 * i) := hv i (Nat.le_refl i) (by omega)
    have hww := write_word_mem_ok fl (addr + 4 * i) (ws i) (hbad _) hvi
    obtain ⟨fl', h1, h2, h3⟩ :=
      ih ({ fl with mem := fun x => if x = addr + 4 * i then ws i else fl.mem x }) (i + 1)
        hbad (fun j hj1 hj2 => hv j (by omega) (by omega))
    refine ⟨fl', ?_, h2, h3⟩
    unfold flush_go
    rw [hww]
    exact h1

/-- When the flush succeeds, `process_flash` advances `firmware_size` by the
staged byte count, clears the index and both `awaits_flash` and `flashing`,
and sets the status per word written (unchanged when no full word is staged). -/
lemma process_flash_flush_ok (d : Dfu) (fl : Flash) (junk : Nat → Nat)
    (hawait : d.awaits_flash = true) (hflash : d.flashing = false)
    (hbad : ∀ a, fl.badWords a = false) (hsz : fl.sizeKb = 128)
    (hfw : d.firmware_size + d.page_buffer_index ≤ 0x1b800) :
    ∃ fl', process_flash d fl junk =
      ({ d with
          status := if d.page_buffer_index / 4 = 0 then d.status else .Ok
          firmware_size := d.firmware_size + d.page_buffer_index
          page_buffer_index := 0
          awaits_flash := false
          flashing := false }, fl') ∧
      fl'.sizeKb = fl.sizeKb ∧ fl'.badWords = fl.badWords := by
  have hmeta := erase_page_meta fl (PAGE_START + d.firmware_size)
  have hbadE : ∀ a, (erase_page fl (PAGE_START + d.firmware_size)).1.badWords a = false := by
    intro a; rw [hmeta.2]; exact hbad a
  have hvE : ∀ j, 0 ≤ j → j < 0 + d.page_buffer_index / 4 →
      validWord (erase_page fl (PAGE_START + d.firmware_size)).1
        (PAGE_START + d.firmware_size + 4 * j) := by
    intro j _ hj
    rw [validWord_of_sizeKb hmeta.1]
    unfold validWord flashEnd PAGE_START
    omega
  obtain ⟨fl', hok, hsk, hbw⟩ :=
    flush_go_ok (bufWord d.page_buffer) (PAGE_START + d.firmware_size)
      (d.page_buffer_index / 4) (erase_page fl (PAGE_START + d.firmware_size)).1 0 hbadE hvE
  refine ⟨fl', ?_, by rw [hsk, hmeta.1], by rw [hbw, hmeta.2]⟩
  simp only [process_flash, hawait, hflash, Bool.not_false, Bool.and_self, if_true, hok]

/-! ## C7: write_word verify-and-retry -/

/-- C7: for every readback behaviour and data word, `write_word` returns Ok
exactly when one of its at most three program attempts reads back `data`, and
returns Err exactly when all three readbacks differ; in particular the fake
flash failing the first two verifies yields Ok and failing all three yields
Err. -/
theorem c7_write_word_retry :
    (∀ rb data, write_word rb data = Except.ok () ↔
      (rb 0 = data ∨ rb 1 = data ∨ rb 2 = data)) ∧
    (∀ rb data, write_word rb data = Except.error () ↔
      (rb 0 ≠ data ∧ rb 1 ≠ data ∧ rb 2 ≠ data)) ∧
    write_word (rbThirdTry 7) 7 = Except.ok () ∧
    write_word (rbNever 7) 7 = Except.error () := by
  refine ⟨?_, ?_, rfl, rfl⟩ <;>
  · intro rb data
    by_cases h0 : rb 0 = data <;> by_cases h1 : rb 1 = data <;>
      by_cases h2 : rb 2 = data <;>
      simp [write_word, write_word_go, h0, h1, h2]

/-! ## C10: DNLOAD with wLength = 0 is accepted in every state -/

/-- C10: a class DNLOAD request with `wLength = 0` addressed to the DFU
interface is accepted in every state (the only guard is `download_capable`,
and `wValue` is never examined), and always moves the session to `DfuManifest`
with `manifesting` and `awaits_flash` latched, leaving every other field
unchanged. -/
theorem c10_dnload_zero_manifests (d : Dfu) (fl : Flash) (req : Request)
    (data : List Nat) (haddr : addressedToDfu d req)
    (hreq : req.request = DFU_DNLOAD) (hlen : req.length = 0)
    (hdc : d.download_capable = true) :
    control_out d fl req data =
      ({ d with state := .DfuManifest, manifesting := true, awaits_flash := true },
        .accepted) := by
  simp [control_out, haddr, hreq, hlen, hdc]

/-- Sample session sitting in `DfuError` after a stalled request. -/
def dErr : Dfu :=
  { comm_if := 0
    upload_capable := false
    download_capable := true
    state := .DfuError
    status := .ErrStaledPkt
    firmware_size := 0
    awaits_flash := false
    flashing := false
    manifesting := false
    page_buffer := fun _ => 0
    page_buffer_index := 0
    flags := none }

/-- A zero-length DNLOAD with a nonzero `wValue`, addressed to interface 0. -/
def reqDnloadZero : Request := ⟨.Class, .Interface, 0, 1, 7, 0⟩

/-- Witness for C10: the manifest-triggering DNLOAD is accepted even from
`DfuError` and with `wValue = 7`. -/
theorem c10_dnload_zero_manifests_witness :
    control_out dErr flash128 reqDnloadZero [] =
      ({ dErr with state := .DfuManifest, manifesting := true, awaits_flash := true },
        .accepted) :=
  c10_dnload_zero_manifests dErr flash128 reqDnloadZero [] (by decide) rfl rfl rfl

/-! ## C1, C2, C8: the boot-flags store -/

/-- A well-formed boot-flags record carrying the magic. -/
def sampleFlags : BlFlags := ⟨0xdeadcafe, 1, true, true, 1024⟩

/-- C1: for every record carrying the magic, a `write_bl_flags` followed by
`read_bl_flags` returns a structurally equal record (on a fault-free die of
either supported size); and whenever neither candidate address reads back the
magic, `read_bl_flags` returns none. -/
theorem c1_flags_roundtrip :
    (∀ (fl : Flash) (flags : BlFlags) (junk : Nat → Nat),
      (∀ a, fl.badWords a = false) → 64 ≤ fl.sizeKb → flags.magic = BL_MAGIC →
      read_bl_flags (write_bl_flags fl flags junk) = some flags) ∧
    (∀ fl : Flash, readWord fl BL_FLAGS_HIGH ≠ BL_MAGIC →
      readWord fl BL_FLAGS_LOW ≠ BL_MAGIC → read_bl_flags fl = none) := by
  constructor
  · exact fun fl flags junk => read_write_bl_flags fl flags junk
  · intro fl h1 h2
    unfold read_bl_flags
    rw [if_neg h1, if_neg h2]

/-- Witness for C1: the round trip on a fresh 128 KiB part, and the absent
answer on a blank 64 KiB part. -/
theorem c1_flags_roundtrip_witness :
    read_bl_flags (write_bl_flags flash128 sampleFlags (fun _ => 0)) = some sampleFlags ∧
    read_bl_flags flash64 = none :=
  ⟨c1_flags_roundtrip.1 flash128 sampleFlags (fun _ => 0) (fun _ => rfl) (by decide) rfl,
    c1_flags_roundtrip.2 flash64 (by decide) (by decide)⟩

/-- C2 evaluation: `as_u32_slice` passes `size_of::<BlFlags>()` = 16 - the
BYTE size of the record - as the number of `u32` ELEMENTS, so `write_bl_flags`
programs 16 words (64 bytes), not the five words (20 bytes) the claim states:
at byte offset 60 past the chosen address the 12th out-of-bounds word is
programmed (here the junk value 0xAB), where the claimed layout would have left
the erased pattern. -/
theorem c2_sixteen_words_programmed :
    as_u32_slice_len = 16 ∧ as_u32_slice_len ≠ 5 ∧
    readWord (write_bl_flags flash128 sampleFlags (fun _ => 0xAB)) (BL_FLAGS_HIGH + 60)
      = 0xAB := by
  refine ⟨rfl, by decide, by decide⟩

/-- C8: `write_bl_flags` first erases the primary page; when the status
register after that erase shows a write-protect error, a program error, or a
clear end-of-operation bit, the record slice is programmed on the freshly
erased fallback page, and otherwise on the freshly erased primary page (the
word at offset 256, beyond the slice, still reads erased in both cases). -/
theorem c8_erase_then_select (fl : Flash) (flags : BlFlags) (junk : Nat → Nat)
    (hbad : ∀ a, fl.badWords a = false) (hsz : 64 ≤ fl.sizeKb) :
    (srFallback (erase_page fl BL_FLAGS_HIGH).2 = true →
      (∀ i, i < 16 →
        readWord (write_bl_flags fl flags junk) (BL_FLAGS_LOW + 4 * i) =
          blWords flags junk i) ∧
      readWord (write_bl_flags fl flags junk) (BL_FLAGS_LOW + 256) = 0xffffffff) ∧
    (srFallback (erase_page fl BL_FLAGS_HIGH).2 = false →
      (∀ i, i < 16 →
        readWord (write_bl_flags fl flags junk) (BL_FLAGS_HIGH + 4 * i) =
          blWords flags junk i) ∧
      readWord (write_bl_flags fl flags junk) (BL_FLAGS_HIGH + 256) = 0xffffffff) := by
  by_cases hhigh : validWord fl BL_FLAGS_HIGH
  · have hsr : (erase_page fl BL_FLAGS_HIGH).2 = ⟨false, false, true⟩ := by
      rw [erase_page_valid fl _ hhigh]
    have h128 := (validWord_high_iff fl).mp hhigh
    constructor
    · intro hfb
      rw [hsr] at hfb
      exact absurd hfb (by decide)
    · intro _
      rw [write_bl_flags_eq_high fl flags junk hhigh]
      constructor
      · intro i hi
        exact readWord_write_words _ _ _ 16 i hbad
          (fun j hj => words_valid_high fl h128 j hj) hi
      · unfold readWord
        split
        · rw [write_words_mem_other _ _ 16 _ _ (fun j hj => by omega)]
          have hps := page_size_gt_256 fl
          simp only []
          rw [if_pos ⟨by omega, by omega⟩]
        · rfl
  · have hsr : (erase_page fl BL_FLAGS_HIGH).2 = ⟨false, true, false⟩ := by
      rw [erase_page_invalid fl _ hhigh]
    have hlow : validWord fl BL_FLAGS_LOW := validWord_low fl hsz
    constructor
    · intro _
      rw [write_bl_flags_eq_low fl flags junk hhigh hlow]
      constructor
      · intro i hi
        exact readWord_write_words _ _ _ 16 i hbad
          (fun j hj => words_valid_low fl hsz j hj) hi
      · unfold readWord
        split
        · rw [write_words_mem_other _ _ 16 _ _ (fun j hj => by omega)]
          have hps := page_size_gt_256 fl
          simp only []
          rw [if_pos ⟨by omega, by omega⟩]
        · rfl
    · intro hok
      rw [hsr] at hok
      exact absurd hok (by decide)

/-- Witness for C8: on a 64 KiB part the primary erase raises the fallback
condition and the magic word lands at the fallback address. -/
theorem c8_erase_then_select_witness :
    srFallback (erase_page flash64 BL_FLAGS_HIGH).2 = true ∧
    readWord (write_bl_flags flash64 sampleFlags (fun _ => 0)) (BL_FLAGS_LOW + 4 * 0) =
      blWords sampleFlags (fun _ => 0) 0 :=
  ⟨by decide,
    ((c8_erase_then_select flash64 sampleFlags (fun _ => 0) (fun _ => rfl)
      (by decide)).1 (by decide)).1 0 (by decide)⟩

/-! ## C3: the GET_STATUS handshake -/

/-- A session that just latched a full page: `DfuDnloadSync`, `awaits_flash`
set, status `Ok`, one full 1024-byte page staged. -/
def dSyncAwaits : Dfu :=
  ⟨0, false, true, .DfuDnloadSync, .Ok, 0, true, false, false, fun _ => 0, 1024, none⟩

/-- A well-formed GET_STATUS request for interface 0. -/
def reqGetStatus : Request := ⟨.Class, .Interface, 0, 3, 0, 6⟩

/-- Counterexample to C3: from `DfuDnloadSync` with `awaits_flash` set, the
FIRST GET_STATUS reply reports state `DfuDnloadBusy` with poll timeout 0 ms -
not the 500 ms the claim states (the code attaches the 500 ms timeout to the
following Busy-to-Sync reply instead). -/
theorem c3_counterexample :
    (control_in dSyncAwaits reqGetStatus).2 = InResult.replied [0, 0, 0, 0, 4, 0] ∧
    (control_in dSyncAwaits reqGetStatus).2 ≠ InResult.replied [0, 244, 1, 0, 4, 0] := by
  decide

/-- C3 as amended: starting from `DfuDnloadSync` with `awaits_flash` true and
status `Ok`, the first GET_STATUS reply reports `DfuDnloadBusy` with timeout
0 ms, the second reports `DfuDnloadSync` with timeout 500 ms, and after a
successful `process_flash` the next reply reports `DfuDnloadIdle` with timeout
0 ms (bytes: status, 24-bit little-endian timeout, state, iString). -/
theorem c3_getstatus_handshake_amended (d : Dfu) (fl : Flash) (req : Request)
    (junk : Nat → Nat)
    (haddr : addressedToDfu d req) (hreq : req.request = DFU_GETSTATUS)
    (hval : req.value = 0) (hlen : req.length = 6)
    (hstate : d.state = .DfuDnloadSync) (hawait : d.awaits_flash = true)
    (hstatus : d.status = .Ok) (hflash : d.flashing = false)
    (hbad : ∀ a, fl.badWords a = false) (hsz : fl.sizeKb = 128)
    (hfw : d.firmware_size + d.page_buffer_index ≤ 0x1b800) :
    (control_in d req).2 = .replied [0, 0, 0, 0, 4, 0] ∧
    (control_in (control_in d req).1 req).2 = .replied [0, 244, 1, 0, 3, 0] ∧
    (control_in (process_flash (control_in (control_in d req).1 req).1 fl junk).1 req).2 =
      .replied [0, 0, 0, 0, 5, 0] := by
  obtain ⟨rt, rr, ridx, rq, rv, rl⟩ := req
  obtain ⟨h1, h2, h3⟩ := haddr
  obtain ⟨ridx, uc, dc, st, stt, fw, af, fsh, mf, pb, pbi, flg⟩ := d
  dsimp only at hreq hval hlen h1 h2 h3 hstate hawait hstatus hflash hfw
  subst hreq hval hlen h1 h2 h3 hstate hawait hstatus hflash
  have e1 : control_in ⟨ridx, uc, dc, .DfuDnloadSync, .Ok, fw, true, false, mf, pb, pbi, flg⟩
      ⟨.Class, .Interface, ridx, DFU_GETSTATUS, 0, 6⟩ =
      (⟨ridx, uc, dc, .DfuDnloadBusy, .Ok, fw, true, false, mf, pb, pbi, flg⟩,
        .replied [0, 0, 0, 0, 4, 0]) := by
    simp [control_in, control_in_pre, control_in_force_error, control_in_dispatch, addressedToDfu,
      DFU_UPLOAD, DFU_GETSTATUS, statusBytes,
      DfuState.toByte, DfuDeviceStatus.toByte]
  have e2 : control_in ⟨ridx, uc, dc, .DfuDnloadBusy, .Ok, fw, true, false, mf, pb, pbi, flg⟩
      ⟨.Class, .Interface, ridx, DFU_GETSTATUS, 0, 6⟩ =
      (⟨ridx, uc, dc, .DfuDnloadSync, .Ok, fw, true, false, mf, pb, pbi, flg⟩,
        .replied [0, 244, 1, 0, 3, 0]) := by
    simp [control_in, control_in_pre, control_in_force_error, control_in_dispatch, addressedToDfu,
      DFU_UPLOAD, DFU_GETSTATUS, statusBytes,
      DfuState.toByte, DfuDeviceStatus.toByte]
  obtain ⟨fl', he3, _, _⟩ := process_flash_flush_ok
    ⟨ridx, uc, dc, .DfuDnloadSync, .Ok, fw, true, false, mf, pb, pbi, flg⟩ fl junk
    rfl rfl hbad hsz hfw
  rw [ite_self] at he3
  have e4 : control_in ⟨ridx, uc, dc, .DfuDnloadSync, .Ok, fw + pbi, false, false, mf, pb, 0, flg⟩
      ⟨.Class, .Interface, ridx, DFU_GETSTATUS, 0, 6⟩ =
      (⟨ridx, uc, dc, .DfuDnloadIdle, .Ok, fw + pbi, false, false, mf, pb, 0, flg⟩,
        .replied [0, 0, 0, 0, 5, 0]) := by
    simp [control_in, control_in_pre, control_in_force_error, control_in_dispatch, addressedToDfu,
      DFU_UPLOAD, DFU_GETSTATUS, statusBytes,
      DfuState.toByte, DfuDeviceStatus.toByte]
  refine ⟨?_, ?_, ?_⟩
  · rw [e1]
  · simp only [e1, e2]
  · simp only [e1, e2, he3, e4]

/-- Witness for the amended C3: the full handshake on a concrete session. -/
theorem c3_getstatus_handshake_amended_witness :
    (control_in dSyncAwaits reqGetStatus).2 = .replied [0, 0, 0, 0, 4, 0] ∧
    (control_in (control_in dSyncAwaits reqGetStatus).1 reqGetStatus).2 =
      .replied [0, 244, 1, 0, 3, 0] ∧
    (control_in
      (process_flash (control_in (control_in dSyncAwaits reqGetStatus).1 reqGetStatus).1
        flash128 (fun _ => 0)).1 reqGetStatus).2 = .replied [0, 0, 0, 0, 5, 0] :=
  c3_getstatus_handshake_amended dSyncAwaits flash128 reqGetStatus (fun _ => 0)
    (by decide) rfl rfl rfl rfl rfl rfl rfl (fun _ => rfl) rfl (by decide)

/-! ## C9: the flush error path -/

/-- A session that latched BOTH `awaits_flash` and `manifesting` (a partial
final page followed by the zero-length DNLOAD), with four staged bytes. -/
def dPartialManifest : Dfu :=
  ⟨0, false, true, .DfuManifest, .Ok, 0, true, false, true,
    fun i => if i < 4 then i + 1 else 0, 4, none⟩

/-- Counterexample to C9: when the word write fails during the page flush,
`process_flash` leaves `manifesting` SET (the error arm clears only
`awaits_flash` and `flashing`), contradicting the claim that all three latches
are cleared; the status does become `ErrWrite`. -/
theorem c9_counterexample :
    (process_flash dPartialManifest flash128bad (fun _ => 0)).1.manifesting = true ∧
    (process_flash dPartialManifest flash128bad (fun _ => 0)).1.status = .ErrWrite := by
  decide

/-- C9 as amended: when a word write fails in the page-flush branch,
`process_flash` sets `ErrWrite`, zeroes the staging index, clears
`awaits_flash` and `flashing`, and leaves every other field - in particular
`manifesting` and `firmware_size` - unchanged. -/
theorem c9_flush_error_amended (d : Dfu) (fl : Flash) (junk : Nat → Nat) (fl2 : Flash)
    (hawait : d.awaits_flash = true) (hflash : d.flashing = false)
    (herr : flush_go (bufWord d.page_buffer) (PAGE_START + d.firmware_size)
        ((erase_page fl (PAGE_START + d.firmware_size)).1) 0 (d.page_buffer_index / 4) =
      .error fl2) :
    process_flash d fl junk =
      ({ d with
          status := .ErrWrite
          page_buffer_index := 0
          awaits_flash := false
          flashing := false }, fl2) := by
  simp only [process_flash, hawait, hflash, Bool.not_false, Bool.and_self, if_true, herr]

/-- The flash state the failing flush of the C9 scenario stops at. -/
def c9flAfter : Flash :=
  match flush_go (bufWord dPartialManifest.page_buffer)
      (PAGE_START + dPartialManifest.firmware_size)
      ((erase_page flash128bad (PAGE_START + dPartialManifest.firmware_size)).1) 0
      (dPartialManifest.page_buffer_index / 4) with
  | .error f => f
  | .ok f => f

/-- Witness for the amended C9 on the concrete failing scenario. -/
theorem c9_flush_error_amended_witness :
    process_flash dPartialManifest flash128bad (fun _ => 0) =
      ({ dPartialManifest with
          status := .ErrWrite
          page_buffer_index := 0
          awaits_flash := false
          flashing := false }, c9flAfter) :=
  c9_flush_error_amended dPartialManifest flash128bad (fun _ => 0) c9flAfter rfl rfl rfl

/-! ## C4: manifest commits the metadata -/

/-- The scenario of claim C4: the zero-length DNLOAD followed by the two
`process_flash` invocations that drain the deferred work it enables (the first
flushes the staged page, the second commits the boot-flags record). -/
def manifestRun (d : Dfu) (fl : Flash) (req : Request) (data : List Nat)
    (j1 j2 : Nat → Nat) : Dfu × Flash :=
  process_flash
    (process_flash (control_out d fl req data).1 fl j1).1
    (process_flash (control_out d fl req data).1 fl j1).2 j2

/-- C4: a DNLOAD with `wLength = 0` drives the state to `DfuManifest`, and
completing the deferred work writes a fresh boot-flags record whose
`flash_count` is the previous count plus one (or 1 with no previous record),
whose two booleans are true, and whose `user_code_length` equals the final
`firmware_size` - the total bytes accepted in the session, staged bytes
included; the session then holds that record and `manifesting` is cleared. -/
theorem c4_manifest_commit (d : Dfu) (fl : Flash) (req : Request) (data : List Nat)
    (j1 j2 : Nat → Nat)
    (haddr : addressedToDfu d req) (hreq : req.request = DFU_DNLOAD)
    (hlen : req.length = 0) (hdc : d.download_capable = true)
    (hflash : d.flashing = false)
    (hbad : ∀ a, fl.badWords a = false) (hsz : fl.sizeKb = 128)
    (hfw : d.firmware_size + d.page_buffer_index ≤ 0x1b800)
    (hfc : ∀ f, d.flags = some f → f.flash_count + 1 < 4294967296) :
    (control_out d fl req data).2 = .accepted ∧
    (control_out d fl req data).1.state = .DfuManifest ∧
    read_bl_flags (manifestRun d fl req data j1 j2).2 =
      some ⟨BL_MAGIC,
        (match d.flags with | some f => f.flash_count + 1 | none => 1),
        true, true, d.firmware_size + d.page_buffer_index⟩ ∧
    (manifestRun d fl req data j1 j2).1.flags =
      read_bl_flags (manifestRun d fl req data j1 j2).2 ∧
    (manifestRun d fl req data j1 j2).1.manifesting = false := by
  have e1 : control_out d fl req data =
      ({ d with state := .DfuManifest, manifesting := true, awaits_flash := true },
        .accepted) := by
    simp [control_out, haddr, hreq, hlen, hdc]
  have hflash1 :
      ({ d with state := .DfuManifest, manifesting := true, awaits_flash := true } : Dfu).flashing
        = false := hflash
  have hfw1 :
      ({ d with state := .DfuManifest, manifesting := true, awaits_flash := true } : Dfu).firmware_size
        + ({ d with state := .DfuManifest, manifesting := true, awaits_flash := true } : Dfu).page_buffer_index
        ≤ 0x1b800 := hfw
  obtain ⟨fl', he2, hsk, hbw⟩ := process_flash_flush_ok
    ({ d with state := .DfuManifest, manifesting := true, awaits_flash := true }) fl j1
    rfl hflash1 hbad hsz hfw1
  have hbad' : ∀ a, fl'.badWords a = false := fun a => by rw [hbw]; exact hbad a
  have hsz' : 64 ≤ fl'.sizeKb := by rw [hsk, hsz]; omega
  have hread := read_write_bl_flags fl'
    (⟨BL_MAGIC,
      (match d.flags with | some f => (f.flash_count + 1) % 4294967296 | none => 1),
      true, true, (d.firmware_size + d.page_buffer_index) % 4294967296⟩ : BlFlags)
    j2 hbad' hsz' rfl
  have hcount : (match d.flags with
      | some f => (f.flash_count + 1) % 4294967296
      | none => 1) =
      (match d.flags with | some f => f.flash_count + 1 | none => 1) := by
    cases hf : d.flags with
    | none => rfl
    | some f => exact Nat.mod_eq_of_lt (hfc f hf)
  have hlenmod : (d.firmware_size + d.page_buffer_index) % 4294967296 =
      d.firmware_size + d.page_buffer_index :=
    Nat.mod_eq_of_lt (by omega)
  rw [hcount, hlenmod] at hread
  refine ⟨by rw [e1], by rw [e1], ?_, ?_, ?_⟩ <;>
  · simp only [manifestRun, e1, he2]
    simp only [process_flash]
    simp [hread, hcount, hlenmod]

/-- A mid-session state: 512 bytes already committed, 4 bytes staged, a
previous record with count 3 present. -/
def dMidSession : Dfu :=
  ⟨0, false, true, .DfuDnloadSync, .Ok, 512, false, false, false,
    fun _ => 0, 4, some ⟨0xdeadcafe, 3, true, true, 512⟩⟩

/-- Witness for C4: from `dMidSession`, the manifest commits a record with
count 4 and length 516. -/
theorem c4_manifest_commit_witness :
    (control_out dMidSession flash128 reqDnloadZero []).2 = .accepted ∧
    (control_out dMidSession flash128 reqDnloadZero []).1.state = .DfuManifest ∧
    read_bl_flags (manifestRun dMidSession flash128 reqDnloadZero [] (fun _ => 0)
        (fun _ => 0)).2 =
      some ⟨BL_MAGIC,
        (match dMidSession.flags with | some f => f.flash_count + 1 | none => 1),
        true, true, dMidSession.firmware_size + dMidSession.page_buffer_index⟩ ∧
    (manifestRun dMidSession flash128 reqDnloadZero [] (fun _ => 0) (fun _ => 0)).1.flags =
      read_bl_flags (manifestRun dMidSession flash128 reqDnloadZero [] (fun _ => 0)
        (fun _ => 0)).2 ∧
    (manifestRun dMidSession flash128 reqDnloadZero [] (fun _ => 0)
        (fun _ => 0)).1.manifesting = false :=
  c4_manifest_commit dMidSession flash128 reqDnloadZero [] (fun _ => 0) (fun _ => 0)
    (by decide) rfl rfl rfl rfl (fun _ => rfl) rfl (by decide)
    (fun f hf => by cases hf; decide)

/-! ## C5, C6: counters of the session state -/

/-- A DNLOAD request of the given length for interface 0. -/
def reqDnload (len : Nat) : Request := ⟨.Class, .Interface, 0, DFU_DNLOAD, 0, len⟩

/-- `control_out` leaves `firmware_size` alone and either leaves the staging
index alone or advances it by the payload length (the accepted DNLOAD). -/
lemma control_out_counters (d : Dfu) (fl : Flash) (req : Request) (data : List Nat) :
    (control_out d fl req data).1.firmware_size = d.firmware_size ∧
    ((control_out d fl req data).1.page_buffer_index = d.page_buffer_index ∨
      (control_out d fl req data).1.page_buffer_index =
        d.page_buffer_index + data.length) := by
  unfold control_out
  (repeat' split) <;>
    first
      | exact ⟨rfl, Or.inl rfl⟩
      | exact ⟨rfl, Or.inr rfl⟩
      | simp

/-- `control_in` never touches `firmware_size` or the staging index. -/
lemma control_in_force_error_counters (d : Dfu) :
    (control_in_force_error d).firmware_size = d.firmware_size ∧
    (control_in_force_error d).page_buffer_index = d.page_buffer_index := by
  unfold control_in_force_error
  split <;> exact ⟨rfl, rfl⟩

/-- Neither does the Busy-advance fixup. -/
lemma control_in_pre_counters (d : Dfu) :
    (control_in_pre d).firmware_size = d.firmware_size ∧
    (control_in_pre d).page_buffer_index = d.page_buffer_index := by
  have h := control_in_force_error_counters d
  unfold control_in_pre
  split
  · exact h
  · exact h

/-- The dispatch of `control_in` never touches the counters either. -/
lemma control_in_dispatch_counters (d2 : Dfu) (req : Request) :
    (control_in_dispatch d2 req).1.firmware_size = d2.firmware_size ∧
    (control_in_dispatch d2 req).1.page_buffer_index = d2.page_buffer_index := by
  unfold control_in_dispatch
  (repeat' split) <;> exact ⟨rfl, rfl⟩

lemma control_in_counters (d : Dfu) (req : Request) :
    (control_in d req).1.firmware_size = d.firmware_size ∧
    (control_in d req).1.page_buffer_index = d.page_buffer_index := by
  unfold control_in
  split
  · exact ⟨rfl, rfl⟩
  · have h1 := control_in_dispatch_counters (control_in_pre d) req
    have h2 := control_in_pre_counters d
    exact ⟨h1.1.trans h2.1, h1.2.trans h2.2⟩

/-- `process_flash` either leaves both counters alone, or moves the staged
byte count into `firmware_size` zeroing the index, or (on a write error)
discards the staged bytes zeroing the index. -/
lemma process_flash_counters (d : Dfu) (fl : Flash) (junk : Nat → Nat) :
    ((process_flash d fl junk).1.firmware_size = d.firmware_size ∧
      (process_flash d fl junk).1.page_buffer_index = d.page_buffer_index) ∨
    ((process_flash d fl junk).1.firmware_size =
        d.firmware_size + d.page_buffer_index ∧
      (process_flash d fl junk).1.page_buffer_index = 0) ∨
    ((process_flash d fl junk).1.firmware_size = d.firmware_size ∧
      (process_flash d fl junk).1.page_buffer_index = 0) := by
  unfold process_flash
  repeat' split <;> simp

/-- Trace invariant: with every OUT payload a multiple of four,
`firmware_size` and the staging index stay multiples of four and their sum is
bounded by the total payload bytes offered plus the initial sum. -/
lemma run_counters :
    ∀ (steps : List Step) (p : Dfu × Flash),
      (∀ s ∈ steps, 4 ∣ outLen s) →
      4 ∣ p.1.firmware_size → 4 ∣ p.1.page_buffer_index →
      4 ∣ (run p steps).1.firmware_size ∧ 4 ∣ (run p steps).1.page_buffer_index ∧
      (run p steps).1.firmware_size + (run p steps).1.page_buffer_index ≤
        p.1.firmware_size + p.1.page_buffer_index + totalOutLen steps := by
  intro steps
  induction steps with
  | nil => intro p _ h1 h2; exact ⟨h1, h2, by simp [run, totalOutLen]⟩
  | cons s steps ih =>
    intro p hall h1 h2
    have hs : 4 ∣ outLen s := hall s (List.mem_cons_self s steps)
    have hrest : ∀ x ∈ steps, 4 ∣ outLen x := fun x hx => hall x (List.mem_cons_of_mem s hx)
    have hstep : 4 ∣ (runStep p s).1.firmware_size ∧
        4 ∣ (runStep p s).1.page_buffer_index ∧
        (runStep p s).1.firmware_size + (runStep p s).1.page_buffer_index ≤
          p.1.firmware_size + p.1.page_buffer_index + outLen s := by
      cases s with
      | ctlOut req data =>
        have hc := control_out_counters p.1 p.2 req data
        dsimp [runStep, outLen] at hs ⊢
        obtain ⟨hf, hp | hp⟩ := hc
        · rw [hf, hp]; exact ⟨h1, h2, by omega⟩
        · rw [hf, hp]; exact ⟨h1, Nat.dvd_add h2 hs, by omega⟩
      | ctlIn req =>
        have hc := control_in_counters p.1 req
        dsimp [runStep, outLen]
        rw [hc.1, hc.2]; exact ⟨h1, h2, by omega⟩
      | poll junk =>
        have hc := process_flash_counters p.1 p.2 junk
        dsimp [runStep, outLen]
        rcases hc with ⟨hf, hp⟩ | ⟨hf, hp⟩ | ⟨hf, hp⟩ <;> rw [hf, hp]
        · exact ⟨h1, h2, by omega⟩
        · exact ⟨Nat.dvd_add h1 h2, Dvd.intro 0 rfl, by omega⟩
        · exact ⟨h1, Dvd.intro 0 rfl, by omega⟩
    have hrun : run p (s :: steps) = run (runStep p s) steps := rfl
    have hrec := ih (runStep p s) hrest hstep.1 hstep.2.1
    have htot : totalOutLen (s :: steps) = outLen s + totalOutLen steps := by
      simp [totalOutLen]
    rw [hrun, htot]
    refine ⟨hrec.1, hrec.2.1, ?_⟩
    have h3 := hrec.2.2
    have h4 := hstep.2.2
    omega

/-- C5 counterexample trace: a 3-byte DNLOAD, the zero-length DNLOAD, and the
following `process_flash`. -/
def c5Trace : List Step :=
  [.ctlOut (reqDnload 3) [1, 2, 3], .ctlOut reqDnloadZero [], .poll (fun _ => 0)]

/-- Counterexample to C5: after accepting a 3-byte payload and manifesting,
`process_flash` adds the odd staged count to `firmware_size`, which becomes 3 -
not a multiple of 4 (and the code nowhere bounds `firmware_size` against the
application region). -/
theorem c5_counterexample :
    (run (Dfu.new flash128 true 0, flash128) c5Trace).1.firmware_size = 3 ∧
    ¬(4 ∣ (run (Dfu.new flash128 true 0, flash128) c5Trace).1.firmware_size) := by
  have h : (run (Dfu.new flash128 true 0, flash128) c5Trace).1.firmware_size = 3 := by
    decide
  exact ⟨h, by rw [h]; omega⟩

/-- Unconditional trace bound: over ANY trace - payload lengths arbitrary -
the sum of `firmware_size` and the staging index never exceeds the initial sum
plus the total payload bytes offered by the OUT transfers. -/
lemma run_bound :
    ∀ (steps : List Step) (p : Dfu × Flash),
      (run p steps).1.firmware_size + (run p steps).1.page_buffer_index ≤
        p.1.firmware_size + p.1.page_buffer_index + totalOutLen steps := by
  intro steps
  induction steps with
  | nil => intro p; simp [run, totalOutLen]
  | cons s steps ih =>
    intro p
    have hstep : (runStep p s).1.firmware_size + (runStep p s).1.page_buffer_index ≤
        p.1.firmware_size + p.1.page_buffer_index + outLen s := by
      cases s with
      | ctlOut req data =>
        obtain ⟨hf, hp | hp⟩ := control_out_counters p.1 p.2 req data <;>
          dsimp [runStep, outLen] <;> rw [hf, hp] <;> omega
      | ctlIn req =>
        have hc := control_in_counters p.1 req
        dsimp [runStep, outLen]
        rw [hc.1, hc.2]
      | poll junk =>
        rcases process_flash_counters p.1 p.2 junk with ⟨hf, hp⟩ | ⟨hf, hp⟩ | ⟨hf, hp⟩ <;>
          dsimp [runStep, outLen] <;> rw [hf, hp] <;> omega
    have hrec := ih (runStep p s)
    have htot : totalOutLen (s :: steps) = outLen s + totalOutLen steps := by
      simp [totalOutLen]
    have hrun : run p (s :: steps) = run (runStep p s) steps := rfl
    rw [hrun, htot]
    omega

/-- C5 as amended: over every trace of control transfers and `process_flash`
polls from a fresh session - payload lengths arbitrary - `firmware_size` never
exceeds the total payload bytes offered by the OUT transfers; and provided
every OUT payload length is a multiple of 4, it stays a multiple of 4 (the
code enforces no bound against the application region itself). -/
theorem c5_firmware_size_amended (fl : Flash) (dc : Bool) (ci : Nat)
    (steps : List Step) :
    (run (Dfu.new fl dc ci, fl) steps).1.firmware_size ≤ totalOutLen steps ∧
    ((∀ s ∈ steps, 4 ∣ outLen s) →
      4 ∣ (run (Dfu.new fl dc ci, fl) steps).1.firmware_size) := by
  constructor
  · have h := run_bound steps (Dfu.new fl dc ci, fl)
    have h0 : (Dfu.new fl dc ci, fl).1.firmware_size = 0 := rfl
    have h0' : (Dfu.new fl dc ci, fl).1.page_buffer_index = 0 := rfl
    omega
  · intro h4
    exact (run_counters steps (Dfu.new fl dc ci, fl) h4
      (Dvd.intro 0 rfl) (Dvd.intro 0 rfl)).1

/-- Witness for the amended C5: the byte bound holds on the odd-length
counterexample trace itself (firmware_size 3 of 3 offered bytes), and the
multiple-of-4 conjunct on a one-step trace with a 4-byte payload. -/
theorem c5_firmware_size_amended_witness :
    (run (Dfu.new flash128 true 0, flash128) c5Trace).1.firmware_size ≤
      totalOutLen c5Trace ∧
    4 ∣ (run (Dfu.new flash128 true 0, flash128)
        [Step.ctlOut (reqDnload 4) [1, 2, 3, 4]]).1.firmware_size :=
  ⟨(c5_firmware_size_amended flash128 true 0 c5Trace).1,
    (c5_firmware_size_amended flash128 true 0 [Step.ctlOut (reqDnload 4) [1, 2, 3, 4]]).2
      (by intro s hs; rw [List.mem_singleton] at hs; subst hs; decide)⟩

set_option maxRecDepth 40000 in
/-- Counterexample to C6: from the fresh session on a 64 KiB part (page size
1024), a single accepted DNLOAD of 1040 bytes drives `page_buffer_index` to
1040, beyond the current page size - the append checks no bound. -/
theorem c6_counterexample :
    (control_out (Dfu.new flash64 true 0) flash64 (reqDnload 1040)
        (List.replicate 1040 0)).2 = .accepted ∧
    ((control_out (Dfu.new flash64 true 0) flash64 (reqDnload 1040)
        (List.replicate 1040 0)).1).page_buffer_index = 1040 ∧
    get_flash_pg_size flash64 = 1024 ∧
    ¬(((control_out (Dfu.new flash64 true 0) flash64 (reqDnload 1040)
        (List.replicate 1040 0)).1).page_buffer_index ≤ get_flash_pg_size flash64) := by
  refine ⟨by decide, by decide, by decide, ?_⟩
  have h : ((control_out (Dfu.new flash64 true 0) flash64 (reqDnload 1040)
      (List.replicate 1040 0)).1).page_buffer_index = 1040 := by decide
  rw [h]; decide

/-- C6 as amended: `0 ≤ page_buffer_index ≤ page_size` is preserved by every
operation provided each OUT payload fits the space left in the current page
(`page_buffer_index + length ≤ page_size`); IN transfers never move the index
and `process_flash` never increases it. -/
theorem c6_index_bound_amended :
    (∀ (d : Dfu) (fl : Flash) (req : Request) (data : List Nat),
        d.page_buffer_index + data.length ≤ get_flash_pg_size fl →
        ((control_out d fl req data).1).page_buffer_index ≤ get_flash_pg_size fl) ∧
    (∀ (d : Dfu) (req : Request),
        ((control_in d req).1).page_buffer_index = d.page_buffer_index) ∧
    (∀ (d : Dfu) (fl : Flash) (junk : Nat → Nat),
        ((process_flash d fl junk).1).page_buffer_index ≤ d.page_buffer_index) := by
  refine ⟨?_, ?_, ?_⟩
  · intro d fl req data h
    obtain ⟨hf, hp | hp⟩ := control_out_counters d fl req data <;> rw [hp] <;> omega
  · exact fun d req => (control_in_counters d req).2
  · intro d fl junk
    rcases process_flash_counters d fl junk with ⟨_, hp⟩ | ⟨_, hp⟩ | ⟨_, hp⟩ <;>
      rw [hp] <;> omega

/-- Witness for the amended C6: a fitting 256-byte chunk keeps the index in
bounds, an IN transfer leaves it alone, and a poll never raises it. -/
theorem c6_index_bound_amended_witness :
    ((control_out (Dfu.new flash64 true 0) flash64 (reqDnload 256)
        (List.replicate 256 0)).1).page_buffer_index ≤ get_flash_pg_size flash64 ∧
    ((control_in dSyncAwaits reqGetStatus).1).page_buffer_index =
      dSyncAwaits.page_buffer_index ∧
    ((process_flash dSyncAwaits flash128 (fun _ => 0)).1).page_buffer_index ≤
      dSyncAwaits.page_buffer_index :=
  ⟨c6_index_bound_amended.1 (Dfu.new flash64 true 0) flash64 (reqDnload 256)
      (List.replicate 256 0) (by decide),
    c6_index_bound_amended.2.1 dSyncAwaits reqGetStatus,
    c6_index_bound_amended.2.2 dSyncAwaits flash128 (fun _ => 0)⟩

end DfuBoot
